import Mathlib

/-!
Verification of the solana-web3.js fork's core claims.

The definitions below are a shallow embedding of the TypeScript sources:
bytes are `List Nat` (each entry `< 256` for real buffers), JavaScript
numbers that may hold decoded 64-bit values are `Nat` values obtained
through an explicit IEEE-754 double rounding step, fallible code returns
`Except String`.
-/

instance {ε α : Type} [DecidableEq ε] [DecidableEq α] :
    DecidableEq (Except ε α) := fun a b =>
  match a, b with
  | .ok x, .ok y =>
    if h : x = y then .isTrue (h ▸ rfl)
    else .isFalse (fun hc => h (Except.ok.inj hc))
  | .error x, .error y =>
    if h : x = y then .isTrue (h ▸ rfl)
    else .isFalse (fun hc => h (Except.error.inj hc))
  | .ok _, .error _ => .isFalse (fun hc => Except.noConfusion hc)
  | .error _, .ok _ => .isFalse (fun hc => Except.noConfusion hc)

/-- Fuel-driven floor of the base-2 logarithm (structural recursion so the
kernel can evaluate it on closed inputs). -/
def floorLog2Aux : Nat → Nat → Nat
  | 0, _ => 0
  | fuel + 1, n => if n ≤ 1 then 0 else floorLog2Aux fuel (n / 2) + 1

/-- Floor of the base-2 logarithm, exact for every `n < 2 ^ 128` (all the
64-bit-ranged values this development feeds it). -/
def floorLog2 (n : Nat) : Nat := floorLog2Aux 128 n

/-- Round a non-negative integer to the nearest IEEE-754 double
(round-to-nearest, ties-to-even, 53-bit significand).  Integers below
`2 ^ 53` are exactly representable and unchanged.  This models the value a
JavaScript `number` actually holds after `hi32 * 2^32 + lo32`. -/
def roundFloat64 (n : Nat) : Nat :=
  if n < 2 ^ 53 then n
  else
    let e := floorLog2 n - 52
    let step := 2 ^ e
    let q := n / step
    let r := n % step
    if 2 * r < step then q * step
    else if step < 2 * r then (q + 1) * step
    else if q % 2 = 0 then q * step else (q + 1) * step

/-- Buffer `readUInt8`: reads the byte at `off`, throwing a `RangeError`
when the offset is out of bounds (semantics of `BufferLayout.u8`). -/
def readU8 (d : List Nat) (off : Nat) : Except String Nat :=
  if off + 1 ≤ d.length then .ok (d.getD off 0) else .error "RangeError"

/-- Buffer `readUInt32LE`: little-endian 32-bit read at `off`, throwing a
`RangeError` when out of bounds (semantics of `BufferLayout.u32`). -/
def readU32LE (d : List Nat) (off : Nat) : Except String Nat :=
  if off + 4 ≤ d.length then
    .ok (d.getD off 0 + 256 * (d.getD (off + 1) 0 +
      256 * (d.getD (off + 2) 0 + 256 * d.getD (off + 3) 0)))
  else .error "RangeError"

/-- `BufferLayout.nu64` decode: reads the low and high 32-bit halves and
returns `hi * 2^32 + lo` as a JavaScript number, i.e. after IEEE-754
double rounding of the exact sum. -/
def decodeNu64 (d : List Nat) (off : Nat) : Except String Nat :=
  match readU32LE d off with
  | .error e => .error e
  | .ok lo =>
    match readU32LE d (off + 4) with
    | .error e => .error e
    | .ok hi => .ok (roundFloat64 (hi * 2 ^ 32 + lo))

/-- `Buffer.slice(a, b)` / `Uint8Array.slice`: a clamping, copying slice
(never throws), as used by `BufferLayout.blob` for 32-byte public keys. -/
def bufSlice (d : List Nat) (a b : Nat) : List Nat :=
  (d.drop a).take (b - a)

/-- `new BN(number)` from bn.js: asserts `number < 2 ^ 53`
("Assertion failed") and otherwise represents the integer exactly. -/
def bnNew (n : Nat) : Except String Nat :=
  if n < 2 ^ 53 then .ok n else .error "Assertion failed"

/-- Decoded `LookupTableMetaLayout` fields, in the order of the
`BufferLayout.struct` in `state.ts`: u32 `typeIndex`, nu64
`deactivationSlot`, nu64 `lastExtendedSlot`, u8 `lastExtendedStartIndex`,
an anonymous u8 option marker, then `authority` as a sequence of
32-byte blobs whose count is the option marker (read back at offset -1). -/
structure LookupTableMeta where
  typeIndex : Nat
  deactivationSlot : Nat
  lastExtendedSlot : Nat
  lastExtendedStartIndex : Nat
  authority : List (List Nat)
deriving DecidableEq

/-- Modelled from the spec: `decodeData` (account-data.ts, not under src/)
decodes the fixed 56-byte metadata prefix — "type tag, deactivation slot,
last-extended slot, last-extended-start-index, an optional authority
flagged by a 1-byte presence marker" — by running the
`LookupTableMetaLayout` struct given in `state.ts` over the account bytes.
Field offsets follow that layout: typeIndex at 0, deactivationSlot at 4,
lastExtendedSlot at 12, lastExtendedStartIndex at 20, option marker at 21,
authority blobs from 22. -/
def decodeLookupTableMeta (d : List Nat) : Except String LookupTableMeta :=
  match readU32LE d 0 with
  | .error e => .error e
  | .ok typeIndex =>
    match decodeNu64 d 4 with
    | .error e => .error e
    | .ok deactivationSlot =>
      match decodeNu64 d 12 with
      | .error e => .error e
      | .ok lastExtendedSlot =>
        match readU8 d 20 with
        | .error e => .error e
        | .ok lastExtendedStartIndex =>
          match readU8 d 21 with
          | .error e => .error e
          | .ok opt =>
            .ok { typeIndex := typeIndex
                  deactivationSlot := deactivationSlot
                  lastExtendedSlot := lastExtendedSlot
                  lastExtendedStartIndex := lastExtendedStartIndex
                  authority :=
                    (List.range opt).map fun i =>
                      bufSlice d (22 + 32 * i) (22 + 32 * i + 32) }

/-- `AddressLookupTableState` from `state.ts`; a `PublicKey` is its raw
32 bytes. -/
structure AddressLookupTableState where
  deactivationSlot : Nat
  lastExtendedSlot : Nat
  lastExtendedSlotStartIndex : Nat
  authority : Option (List Nat)
  addresses : List (List Nat)
deriving DecidableEq

/-- `AddressLookupTableAccount.deserialize` from `state.ts`: decode the
meta layout, assert the remaining length is a non-negative multiple of 32
("lookup table is invalid"), then read the trailing 32-byte addresses from
offset 56 onward. -/
def AddressLookupTableAccount.deserialize (accountData : List Nat) :
    Except String AddressLookupTableState :=
  match decodeLookupTableMeta accountData with
  | .error e => .error e
  | .ok meta =>
    if (accountData.length : Int) - 56 < 0 then .error "lookup table is invalid"
    else if ((accountData.length : Int) - 56) % 32 ≠ 0 then
      .error "lookup table is invalid"
    else
      .ok { deactivationSlot := meta.deactivationSlot
            lastExtendedSlot := meta.lastExtendedSlot
            lastExtendedSlotStartIndex := meta.lastExtendedStartIndex
            authority :=
              if meta.authority.length ≠ 0 then some (meta.authority.headD [])
              else none
            addresses :=
              (List.range ((((accountData.length : Int) - 56) / 32).toNat)).map
                fun i =>
                  bufSlice (accountData.drop 56) (32 * i) (32 * i + 32) }

/-- `AddressLookupTableAccount.isActive` from `state.ts`:
`new BN(this.state.deactivationSlot).eq(new BN('0xffffffffffffffff'))`.
`bnNew` models the bn.js number constructor (53-bit assertion). -/
def AddressLookupTableAccount.isActive (s : AddressLookupTableState) :
    Except String Bool :=
  match bnNew s.deactivationSlot with
  | .error e => .error e
  | .ok v => .ok (v == 2 ^ 64 - 1)

/-- Lookup-table account bytes for an active (never-deactivated) table:
type tag 1, `deactivationSlot` bytes all `0xff` (the u64 sentinel
`2 ^ 64 - 1`), every other metadata byte zero, no trailing addresses. -/
def sentinelLookupTableData : List Nat :=
  [1, 0, 0, 0] ++ List.replicate 8 255 ++ List.replicate 44 0

/-- The state `AddressLookupTableAccount.deserialize` produces from
`sentinelLookupTableData`: the deactivation slot has been rounded up to
`2 ^ 64` by the `nu64` float decode. -/
def sentinelState : AddressLookupTableState :=
  { deactivationSlot := 2 ^ 64
    lastExtendedSlot := 0
    lastExtendedSlotStartIndex := 0
    authority := none
    addresses := [] }

theorem decodeLookupTableMeta_ok (d : List Nat) (h : 22 ≤ d.length) :
    ∃ meta, decodeLookupTableMeta d = .ok meta ∧
      meta.authority = (List.range (d.getD 21 0)).map
        (fun i => bufSlice d (22 + 32 * i) (22 + 32 * i + 32)) := by
  unfold decodeLookupTableMeta decodeNu64 readU32LE readU8
  rw [if_pos (show (0:Nat) + 4 ≤ d.length by omega),
    if_pos (show (4:Nat) + 4 ≤ d.length by omega),
    if_pos (show (4:Nat) + 4 + 4 ≤ d.length by omega),
    if_pos (show (12:Nat) + 4 ≤ d.length by omega),
    if_pos (show (12:Nat) + 4 + 4 ≤ d.length by omega),
    if_pos (show (20:Nat) + 1 ≤ d.length by omega),
    if_pos (show (21:Nat) + 1 ≤ d.length by omega)]
  exact ⟨_, rfl, rfl⟩

theorem bufSlice_drop (d : List Nat) (a i : Nat) :
    bufSlice (d.drop a) (32 * i) (32 * i + 32) = (d.drop (a + 32 * i)).take 32 := by
  unfold bufSlice
  rw [List.drop_drop, Nat.add_sub_cancel_left]

theorem deserialize_ok_inv (d : List Nat) (s : AddressLookupTableState)
    (h : AddressLookupTableAccount.deserialize d = .ok s) :
    56 ≤ d.length ∧ (d.length - 56) % 32 = 0 ∧
    s.addresses = (List.range ((d.length - 56) / 32)).map
      (fun i => (d.drop (56 + 32 * i)).take 32) ∧
    s.authority = (if d.getD 21 0 = 0 then none
      else some ((d.drop 22).take 32)) := by
  unfold AddressLookupTableAccount.deserialize at h
  cases hm : decodeLookupTableMeta d with
  | error e => rw [hm] at h; exact Except.noConfusion h
  | ok meta =>
    rw [hm] at h
    dsimp only [] at h
    by_cases h1 : (d.length : Int) - 56 < 0
    · rw [if_pos h1] at h; exact Except.noConfusion h
    rw [if_neg h1] at h
    by_cases h2 : ((d.length : Int) - 56) % 32 ≠ 0
    · rw [if_pos h2] at h; exact Except.noConfusion h
    rw [if_neg h2] at h
    have hlen : 56 ≤ d.length := by omega
    have hmod : (d.length - 56) % 32 = 0 := by omega
    obtain ⟨meta2, hm2, hauth⟩ := decodeLookupTableMeta_ok d (by omega)
    rw [hm] at hm2
    cases Except.ok.inj hm2
    have hs := (Except.ok.inj h).symm
    subst hs
    refine ⟨hlen, hmod, ?_, ?_⟩
    · have hcount : ((((d.length : Int) - 56) / 32).toNat) = (d.length - 56) / 32 := by
        omega
      rw [hcount]
      simp only [bufSlice_drop]
    · rw [hauth]
      by_cases h0 : d.getD 21 0 = 0
      · rw [h0]
        simp
      · rw [if_neg h0]
        obtain ⟨k, hk⟩ : ∃ k, d.getD 21 0 = k + 1 := ⟨d.getD 21 0 - 1, by omega⟩
        rw [hk, List.range_succ_eq_map]
        simp only [List.map_cons, List.headD_cons, List.length_cons]
        rw [if_pos (by simp)]
        rw [show bufSlice d (22 + 32 * 0) (22 + 32 * 0 + 32) = (d.drop 22).take 32
          from by unfold bufSlice; norm_num]

theorem deserialize_ok_construct (d : List Nat) (hlen : 56 ≤ d.length)
    (hmod : (d.length - 56) % 32 = 0) :
    ∃ s, AddressLookupTableAccount.deserialize d = .ok s := by
  obtain ⟨meta, hm, -⟩ := decodeLookupTableMeta_ok d (by omega)
  unfold AddressLookupTableAccount.deserialize
  rw [hm]
  dsimp only []
  rw [if_neg (show ¬((d.length : Int) - 56 < 0) by omega),
    if_neg (show ¬(((d.length : Int) - 56) % 32 ≠ 0) by omega)]
  exact ⟨_, rfl⟩

/-- Account bytes of a lookup table with type tag 1, deactivation slot 0,
last-extended slot 0, last-extended start index 5, authority marker 1 with
a 32-byte authority of 7s, two padding bytes, and one trailing 32-byte
address of 9s (88 bytes in total). -/
def exampleLookupTableData : List Nat :=
  [1, 0, 0, 0] ++ List.replicate 16 0 ++ [5] ++ [1] ++
    List.replicate 32 7 ++ [0, 0] ++ List.replicate 32 9

/-- The state `AddressLookupTableAccount.deserialize` produces from
`exampleLookupTableData`. -/
def exampleLookupTableState : AddressLookupTableState :=
  { deactivationSlot := 0
    lastExtendedSlot := 0
    lastExtendedSlotStartIndex := 5
    authority := some (List.replicate 32 7)
    addresses := [List.replicate 32 9] }

/-- C1: the spec claims `isActive()` compares `deactivationSlot` with the
all-bits-set 64-bit sentinel exactly, returning `true` precisely at
`2 ^ 64 - 1`.  The code cannot do this: `nu64` decodes the slot into a
JavaScript double, rounding the sentinel `2 ^ 64 - 1` up to `2 ^ 64`, and
`new BN(number)` then throws its 53-bit assertion, so `isActive` throws on
the sentinel account and can never return `true` for any state. -/
theorem isActive_u64_sentinel_bug :
    AddressLookupTableAccount.deserialize sentinelLookupTableData =
      .ok sentinelState ∧
    sentinelState.deactivationSlot = 2 ^ 64 ∧
    AddressLookupTableAccount.isActive sentinelState =
      .error "Assertion failed" ∧
    ∀ s : AddressLookupTableState,
      AddressLookupTableAccount.isActive s = .error "Assertion failed" ∨
      AddressLookupTableAccount.isActive s = .ok false := by
  refine ⟨by decide, by decide, by decide, fun s => ?_⟩
  unfold AddressLookupTableAccount.isActive bnNew
  by_cases h : s.deactivationSlot < 2 ^ 53
  · right
    rw [if_pos h]
    simp only [Except.ok.injEq, beq_eq_false_iff_ne, ne_eq]
    omega
  · left
    rw [if_neg h]

/-- C2: `AddressLookupTableAccount.deserialize` succeeds exactly when the
input is at least 56 bytes long and the trailing part is a whole number of
32-byte addresses, and on success the i-th address is the 32-byte slice at
offset `56 + 32 * i`. -/
theorem lookupTable_deserialize_length_spec (d : List Nat) :
    ((∃ s, AddressLookupTableAccount.deserialize d = .ok s) ↔
      56 ≤ d.length ∧ (d.length - 56) % 32 = 0) ∧
    ∀ s, AddressLookupTableAccount.deserialize d = .ok s →
      s.addresses.length = (d.length - 56) / 32 ∧
      ∀ i, i < (d.length - 56) / 32 →
        s.addresses.getD i [] = (d.drop (56 + 32 * i)).take 32 := by
  constructor
  · constructor
    · rintro ⟨s, hs⟩
      obtain ⟨h1, h2, -, -⟩ := deserialize_ok_inv d s hs
      exact ⟨h1, h2⟩
    · rintro ⟨h1, h2⟩
      exact deserialize_ok_construct d h1 h2
  · intro s hs
    obtain ⟨h1, h2, haddr, -⟩ := deserialize_ok_inv d s hs
    constructor
    · rw [haddr]
      simp
    · intro i hi
      rw [haddr]
      rw [List.getD_eq_getElem _ _ (by simp [hi])]
      simp [hi]

theorem lookupTable_deserialize_length_spec_witness :
    exampleLookupTableState.addresses.length =
      (exampleLookupTableData.length - 56) / 32 ∧
    exampleLookupTableState.addresses.getD 0 [] =
      (exampleLookupTableData.drop (56 + 32 * 0)).take 32 := by
  have h := (lookupTable_deserialize_length_spec exampleLookupTableData).2
    exampleLookupTableState (by decide)
  exact ⟨h.1, h.2 0 (by decide)⟩

/-- C6: in a successfully deserialized state the `authority` field is
`none` exactly when the 1-byte presence marker at offset 21 is zero, and a
nonzero marker makes it the 32 bytes that immediately follow the marker. -/
theorem lookupTable_authority_presence (d : List Nat)
    (s : AddressLookupTableState)
    (h : AddressLookupTableAccount.deserialize d = .ok s) :
    (s.authority = none ↔ d.getD 21 0 = 0) ∧
    (0 < d.getD 21 0 → s.authority = some ((d.drop 22).take 32)) := by
  obtain ⟨-, -, -, hauth⟩ := deserialize_ok_inv d s h
  by_cases h0 : d.getD 21 0 = 0 <;> simp [hauth, h0] <;> omega

theorem lookupTable_authority_presence_witness :
    exampleLookupTableState.authority =
      some ((exampleLookupTableData.drop 22).take 32) ∧
    (sentinelState.authority = none ↔
      sentinelLookupTableData.getD 21 0 = 0) :=
  ⟨(lookupTable_authority_presence exampleLookupTableData
      exampleLookupTableState (by decide)).2 (by decide),
   (lookupTable_authority_presence sentinelLookupTableData sentinelState
      (by decide)).1⟩

/-- Buffer `readUInt8` in store-passing form: the byte read also returns
the (untouched) backing buffer, making any mutation observable. -/
def readU8St (off : Nat) (buf : List Nat) : Except String Nat × List Nat :=
  (readU8 buf off, buf)

/-- Buffer `readUInt32LE` in store-passing form. -/
def readU32LESt (off : Nat) (buf : List Nat) :
    Except String Nat × List Nat :=
  (readU32LE buf off, buf)

/-- `BufferLayout.nu64` decode in store-passing form: two 32-bit reads. -/
def decodeNu64St (off : Nat) (buf : List Nat) :
    Except String Nat × List Nat :=
  match readU32LESt off buf with
  | (.error e, buf1) => (.error e, buf1)
  | (.ok lo, buf1) =>
    match readU32LESt (off + 4) buf1 with
    | (.error e, buf2) => (.error e, buf2)
    | (.ok hi, buf2) => (.ok (roundFloat64 (hi * 2 ^ 32 + lo)), buf2)

/-- `Uint8Array.slice` in store-passing form: returns a fresh copy of the
range and the backing buffer. -/
def bufSliceSt (a b : Nat) (buf : List Nat) : List Nat × List Nat :=
  (bufSlice buf a b, buf)

/-- `decodeData(LookupTableMetaLayout, ·)` in store-passing form,
performing the same sequence of buffer reads as `decodeLookupTableMeta`
while threading the account buffer through every operation. -/
def decodeLookupTableMetaSt (buf : List Nat) :
    Except String LookupTableMeta × List Nat :=
  match readU32LESt 0 buf with
  | (.error e, buf1) => (.error e, buf1)
  | (.ok typeIndex, buf1) =>
    match decodeNu64St 4 buf1 with
    | (.error e, buf2) => (.error e, buf2)
    | (.ok deactivationSlot, buf2) =>
      match decodeNu64St 12 buf2 with
      | (.error e, buf3) => (.error e, buf3)
      | (.ok lastExtendedSlot, buf3) =>
        match readU8St 20 buf3 with
        | (.error e, buf4) => (.error e, buf4)
        | (.ok lastExtendedStartIndex, buf4) =>
          match readU8St 21 buf4 with
          | (.error e, buf5) => (.error e, buf5)
          | (.ok opt, buf5) =>
            (.ok { typeIndex := typeIndex
                   deactivationSlot := deactivationSlot
                   lastExtendedSlot := lastExtendedSlot
                   lastExtendedStartIndex := lastExtendedStartIndex
                   authority :=
                     (List.range opt).map fun i =>
                       bufSlice buf5 (22 + 32 * i) (22 + 32 * i + 32) },
             buf5)

/-- `AddressLookupTableAccount.deserialize` in store-passing form: every
operation the TypeScript body performs on `accountData` (the layout reads,
the length accesses, the `slice(56)` copy) threads the buffer and returns
it alongside the result. -/
def AddressLookupTableAccount.deserializeSt (accountData : List Nat) :
    Except String AddressLookupTableState × List Nat :=
  match decodeLookupTableMetaSt accountData with
  | (.error e, buf1) => (.error e, buf1)
  | (.ok meta, buf1) =>
    if (buf1.length : Int) - 56 < 0 then
      (.error "lookup table is invalid", buf1)
    else if ((buf1.length : Int) - 56) % 32 ≠ 0 then
      (.error "lookup table is invalid", buf1)
    else
      match bufSliceSt 56 buf1.length buf1 with
      | (tail, buf2) =>
        (.ok { deactivationSlot := meta.deactivationSlot
               lastExtendedSlot := meta.lastExtendedSlot
               lastExtendedSlotStartIndex := meta.lastExtendedStartIndex
               authority :=
                 if meta.authority.length ≠ 0 then
                   some (meta.authority.headD [])
                 else none
               addresses :=
                 (List.range ((((buf2.length : Int) - 56) / 32).toNat)).map
                   fun i => bufSlice tail (32 * i) (32 * i + 32) },
         buf2)

/-- `String.prototype.startsWith`: the first `p.length` characters equal
`p`. -/
def jsStartsWith (s p : List Char) : Bool := s.take p.length == p

/-- `endpoint.replace(/^https:/, 'wss:')`: the anchored regex replaces a
leading `"https:"` by `"wss:"` and leaves any other string unchanged. -/
def replaceHttpsWithWss (s : List Char) : List Char :=
  if jsStartsWith s "https:".data then "wss:".data ++ s.drop 6 else s

/-- `makeWebsocketUrl` from the websocket URL helper: throw
`unsupported URL: <endpoint>` unless the endpoint starts with
`"https://"`, otherwise rewrite the scheme prefix. -/
def makeWebsocketUrl (endpoint : List Char) :
    Except (List Char) (List Char) :=
  if jsStartsWith endpoint "https://".data then
    .ok (replaceHttpsWithWss endpoint)
  else .error ("unsupported URL: ".data ++ endpoint)

/-- `CHUNK_SIZE` from `loader.ts`: `PACKET_DATA_SIZE - 300`.  Modelled from
the spec: `PACKET_DATA_SIZE` itself (transaction.ts, not under src/) is
"a single named constant (packet size ceiling)" whose numeric value the
spec does not fix, so it is taken as an explicit parameter. -/
def CHUNK_SIZE (packetDataSize : Int) : Int := packetDataSize - 300

/-- `Loader.chunkSize` from `loader.ts`. -/
def Loader.chunkSize (packetDataSize : Int) : Int := CHUNK_SIZE packetDataSize

/-- `Loader.getMinNumSignatures` from `loader.ts`:
`2 * (Math.ceil(dataLength / Loader.chunkSize) + 1 + 1)`, with JavaScript
real division and ceiling modelled over `ℚ`. -/
def Loader.getMinNumSignatures (packetDataSize : Int) (dataLength : Nat) :
    Int :=
  2 * (⌈(dataLength : ℚ) / ((Loader.chunkSize packetDataSize : Int) : ℚ)⌉
    + 1 + 1)

/-- C7: deserialization is all-or-nothing — on every input the function
either raises an error or returns a fully populated state whose address
list has the full expected length with every entry a complete 32-byte
address; no partially decoded state is observable. -/
theorem lookupTable_deserialize_all_or_nothing (d : List Nat) :
    (∃ e, AddressLookupTableAccount.deserialize d = .error e) ∨
    (∃ s, AddressLookupTableAccount.deserialize d = .ok s ∧
      s.addresses.length = (d.length - 56) / 32 ∧
      s.addresses.all (fun a => a.length == 32) = true) := by
  cases hd : AddressLookupTableAccount.deserialize d with
  | error e => exact .inl ⟨e, rfl⟩
  | ok s =>
    right
    obtain ⟨h1, h2, haddr, -⟩ := deserialize_ok_inv d s hd
    refine ⟨s, rfl, ?_, ?_⟩
    · rw [haddr]
      simp
    · rw [haddr]
      simp only [List.all_eq_true]
      intro a ha
      simp only [List.mem_map, List.mem_range] at ha
      obtain ⟨i, hi, rfl⟩ := ha
      simp only [beq_iff_eq, List.length_take, List.length_drop]
      omega

theorem decodeNu64St_spec (off : Nat) (d : List Nat) :
    decodeNu64St off d = (decodeNu64 d off, d) := by
  unfold decodeNu64St decodeNu64 readU32LESt
  cases readU32LE d off <;> dsimp only []
  cases readU32LE d (off + 4) <;> rfl

theorem decodeLookupTableMetaSt_spec (d : List Nat) :
    decodeLookupTableMetaSt d = (decodeLookupTableMeta d, d) := by
  unfold decodeLookupTableMetaSt decodeLookupTableMeta readU32LESt readU8St
  cases readU32LE d 0 <;> dsimp only []
  rw [decodeNu64St_spec]
  cases decodeNu64 d 4 <;> dsimp only []
  rw [decodeNu64St_spec]
  cases decodeNu64 d 12 <;> dsimp only []
  cases readU8 d 20 <;> dsimp only []
  cases readU8 d 21 <;> rfl

theorem bufSlice_to_end (d : List Nat) : bufSlice d 56 d.length = d.drop 56 := by
  unfold bufSlice
  rw [← List.length_drop, List.take_length]

/-- C10: the store-passing rendering of `deserialize` returns the account
buffer unchanged on every input (success or error) while computing the
same result as the direct rendering: the body only ever reads from or
copies out of `accountData`, never writes into it. -/
theorem lookupTable_deserialize_no_mutation (d : List Nat) :
    (AddressLookupTableAccount.deserializeSt d).2 = d ∧
    (AddressLookupTableAccount.deserializeSt d).1 =
      AddressLookupTableAccount.deserialize d := by
  unfold AddressLookupTableAccount.deserializeSt
    AddressLookupTableAccount.deserialize bufSliceSt
  rw [decodeLookupTableMetaSt_spec]
  cases decodeLookupTableMeta d with
  | error e => exact ⟨rfl, rfl⟩
  | ok meta =>
    dsimp only []
    by_cases h1 : (d.length : Int) - 56 < 0
    · rw [if_pos h1, if_pos h1]
      exact ⟨rfl, rfl⟩
    rw [if_neg h1, if_neg h1]
    by_cases h2 : ((d.length : Int) - 56) % 32 ≠ 0
    · rw [if_pos h2, if_pos h2]
      exact ⟨rfl, rfl⟩
    rw [if_neg h2, if_neg h2]
    refine ⟨rfl, ?_⟩
    simp only [bufSlice_to_end]

/-- C8: `makeWebsocketUrl` throws exactly when the endpoint does not start
with `"https://"`, and otherwise replaces the leading `"https:"` by
`"wss:"`, keeping every later character. -/
theorem makeWebsocketUrl_spec (endpoint : List Char) :
    (jsStartsWith endpoint "https://".data = true →
      makeWebsocketUrl endpoint = .ok ("wss:".data ++ endpoint.drop 6)) ∧
    (jsStartsWith endpoint "https://".data = false →
      makeWebsocketUrl endpoint =
        .error ("unsupported URL: ".data ++ endpoint)) := by
  constructor
  · intro h
    have h8 : endpoint.take 8 = "https://".data := by
      unfold jsStartsWith at h
      simpa using h
    have h6 : endpoint.take 6 = "https:".data := by
      have ht : (endpoint.take 8).take 6 = endpoint.take 6 := by
        rw [List.take_take]
        norm_num
      rw [← ht, h8]
      decide
    have hh : jsStartsWith endpoint "https:".data = true := by
      unfold jsStartsWith
      simpa using h6
    unfold makeWebsocketUrl replaceHttpsWithWss
    rw [if_pos h, if_pos hh]
  · intro h
    unfold makeWebsocketUrl
    rw [if_neg (by simp [h])]

theorem makeWebsocketUrl_spec_witness :
    makeWebsocketUrl "https://api.example.org".data =
      .ok ("wss:".data ++ "https://api.example.org".data.drop 6) ∧
    makeWebsocketUrl "http://api.example.org".data =
      .error ("unsupported URL: ".data ++ "http://api.example.org".data) :=
  ⟨(makeWebsocketUrl_spec _).1 (by decide),
   (makeWebsocketUrl_spec _).2 (by decide)⟩

/-- C3: the per-chunk program-upload payload bound is the packet size
ceiling minus a fixed 300-byte headroom, whatever the ceiling constant is;
it depends on nothing else. -/
theorem loader_chunkSize_headroom (packetDataSize : Int) :
    Loader.chunkSize packetDataSize = packetDataSize - 300 := rfl

/-- C9: `Loader.getMinNumSignatures` equals
`2 * (ceil(dataLength / chunkSize) + 2)`; it is even, equals 4 at
`dataLength = 0`, is at least 4, and is monotone in `dataLength`
(whenever the packet ceiling leaves a positive chunk size). -/
theorem loader_getMinNumSignatures_spec (p : Int) (h : 300 < p)
    (d e : Nat) (hde : d ≤ e) :
    Loader.getMinNumSignatures p d =
      2 * (⌈(d : ℚ) / ((p : ℚ) - 300)⌉ + 2) ∧
    2 ∣ Loader.getMinNumSignatures p d ∧
    Loader.getMinNumSignatures p 0 = 4 ∧
    4 ≤ Loader.getMinNumSignatures p d ∧
    Loader.getMinNumSignatures p d ≤ Loader.getMinNumSignatures p e := by
  have hc : (0 : ℚ) < (p : ℚ) - 300 := by
    have : (300 : ℚ) < (p : ℚ) := by exact_mod_cast h
    linarith
  have hcast : (((CHUNK_SIZE p) : Int) : ℚ) = (p : ℚ) - 300 := by
    unfold CHUNK_SIZE
    push_cast
    ring
  unfold Loader.getMinNumSignatures Loader.chunkSize
  rw [hcast]
  have hnn : 0 ≤ ⌈(d : ℚ) / ((p : ℚ) - 300)⌉ :=
    Int.ceil_nonneg (div_nonneg (by positivity) (le_of_lt hc))
  have hmono : ⌈(d : ℚ) / ((p : ℚ) - 300)⌉ ≤ ⌈(e : ℚ) / ((p : ℚ) - 300)⌉ := by
    gcongr
  refine ⟨by ring, ⟨_, rfl⟩, ?_, by linarith, by linarith⟩
  norm_num

theorem loader_getMinNumSignatures_spec_witness :
    Loader.getMinNumSignatures 1232 0 = 4 ∧
    4 ≤ Loader.getMinNumSignatures 1232 5 ∧
    Loader.getMinNumSignatures 1232 5 ≤ Loader.getMinNumSignatures 1232 2000 := by
  have h := loader_getMinNumSignatures_spec 1232 (by decide) 5 2000 (by decide)
  exact ⟨h.2.2.1, h.2.2.2.1, h.2.2.2.2⟩

/-- Modelled from the spec: the compact-u16 length encoder
("CompactArrayCodec", no source under src/): a base-128 varint, 7 data
bits per byte with the high bit as continuation flag, 1 to 3 bytes for
values up to 65535. -/
def encodeLength (n : Nat) : List Nat :=
  if n < 128 then [n]
  else if n < 16384 then [n % 128 + 128, n / 128]
  else [n % 128 + 128, (n / 128) % 128 + 128, n / 16384]

/-- Modelled from the spec: the compact-u16 length decoder — follow the
continuation chain for at most 3 bytes and fail with `MalformedLength` on
a truncated buffer, a chain longer than 3 bytes, or a value needing more
than 16 bits; return the value and the remaining bytes. -/
def decodeLength : List Nat → Except String (Nat × List Nat)
  | [] => .error "MalformedLength"
  | b0 :: r0 =>
    if b0 < 128 then .ok (b0, r0)
    else
      match r0 with
      | [] => .error "MalformedLength"
      | b1 :: r1 =>
        if b1 < 128 then
          if 65535 < b0 % 128 + b1 * 128 then .error "MalformedLength"
          else .ok (b0 % 128 + b1 * 128, r1)
        else
          match r1 with
          | [] => .error "MalformedLength"
          | b2 :: r2 =>
            if 128 ≤ b2 then .error "MalformedLength"
            else if 65535 < b0 % 128 + b1 % 128 * 128 + b2 * 16384 then
              .error "MalformedLength"
            else .ok (b0 % 128 + b1 % 128 * 128 + b2 * 16384, r2)

theorem decodeLength_encodeLength (n : Nat) (h : n ≤ 65535) (r : List Nat) :
    decodeLength (encodeLength n ++ r) = .ok (n, r) := by
  unfold encodeLength
  by_cases h1 : n < 128
  · rw [if_pos h1]
    simp only [List.cons_append, List.nil_append]
    simp [decodeLength, h1]
  rw [if_neg h1]
  by_cases h2 : n < 16384
  · rw [if_pos h2]
    simp only [List.cons_append, List.nil_append]
    simp only [decodeLength]
    rw [if_neg (by omega), if_pos (by omega), if_neg (by omega)]
    have hv : (n % 128 + 128) % 128 + n / 128 * 128 = n := by omega
    rw [hv]
  rw [if_neg h2]
  simp only [List.cons_append, List.nil_append]
  simp only [decodeLength]
  rw [if_neg (by omega), if_neg (by omega), if_neg (by omega)]
  have hv : (n % 128 + 128) % 128 + (n / 128 % 128 + 128) % 128 * 128 +
      n / 16384 * 16384 = n := by omega
  rw [if_neg (by omega), hv]

/-- C5: the compact-array length codec round-trips every value in
[0, 65535], and the encoding is 1 to 3 bytes of base-128 varint. -/
theorem compactU16_roundtrip (n : Nat) (h : n ≤ 65535) :
    decodeLength (encodeLength n) = .ok (n, []) ∧
    1 ≤ (encodeLength n).length ∧ (encodeLength n).length ≤ 3 := by
  refine ⟨?_, ?_, ?_⟩
  · have hd := decodeLength_encodeLength n h []
    simpa using hd
  · unfold encodeLength
    by_cases h1 : n < 128
    · simp [h1]
    by_cases h2 : n < 16384 <;> simp [h1, h2]
  · unfold encodeLength
    by_cases h1 : n < 128
    · simp [h1]
    by_cases h2 : n < 16384 <;> simp [h1, h2]

theorem compactU16_roundtrip_witness :
    decodeLength (encodeLength 300) = .ok (300, []) ∧
    1 ≤ (encodeLength 300).length ∧ (encodeLength 300).length ≤ 3 :=
  compactU16_roundtrip 300 (by decide)

/-- Modelled from the spec: the three u8 header counts of a compiled
message (signer accounts, signer-readonly accounts, non-signer-readonly
accounts). -/
structure MessageHeader where
  numRequiredSignatures : Nat
  numReadonlySignedAccounts : Nat
  numReadonlyUnsignedAccounts : Nat
deriving DecidableEq

/-- Modelled from the spec: a compiled instruction — program id index
byte, compact array of account index bytes, compact array of raw data
bytes. -/
structure CompiledInstruction where
  programIdIndex : Nat
  accountKeyIndexes : List Nat
  data : List Nat
deriving DecidableEq

/-- Modelled from the spec: an address-table lookup — 32-byte table key,
compact array of writable index bytes, compact array of readonly index
bytes. -/
structure MessageAddressTableLookup where
  accountKey : List Nat
  writableIndexes : List Nat
  readonlyIndexes : List Nat
deriving DecidableEq

/-- Modelled from the spec: the part of a compiled message shared by both
formats — header, static account keys (32 bytes each), recent blockhash
(32 bytes), compiled instructions. -/
structure MessageCore where
  header : MessageHeader
  staticAccountKeys : List (List Nat)
  recentBlockhash : List Nat
  instructions : List CompiledInstruction
deriving DecidableEq

/-- Modelled from the spec: a compiled message is either Legacy (no
version marker) or V0 (leading version byte with high bit set, trailing
address-table lookups). -/
inductive CompiledMessage
  | legacy (core : MessageCore)
  | v0 (core : MessageCore)
      (addressTableLookups : List MessageAddressTableLookup)
deriving DecidableEq

/-- Modelled from the spec: serialize one compiled instruction:
`programIdIndex(1) | compactArray(accountIndexes, 1 byte each) |
compactArray(data, raw bytes)`. -/
def serializeInstruction (i : CompiledInstruction) : List Nat :=
  i.programIdIndex ::
    (encodeLength i.accountKeyIndexes.length ++ (i.accountKeyIndexes ++
      (encodeLength i.data.length ++ i.data)))

/-- Modelled from the spec: serialize one address-table lookup:
`tableKey(32 bytes) | compactArray(writableIndexes) |
compactArray(readonlyIndexes)`. -/
def serializeLookup (l : MessageAddressTableLookup) : List Nat :=
  l.accountKey ++ (encodeLength l.writableIndexes.length ++
    (l.writableIndexes ++ (encodeLength l.readonlyIndexes.length ++
      l.readonlyIndexes)))

/-- Modelled from the spec: the shared body layout: `header(3 bytes) |
compactArray(staticAccountKeys, 32 bytes each) | recentBlockhash(32) |
compactArray(compiledInstructions)`. -/
def serializeCore (c : MessageCore) : List Nat :=
  c.header.numRequiredSignatures :: c.header.numReadonlySignedAccounts ::
    c.header.numReadonlyUnsignedAccounts ::
    (encodeLength c.staticAccountKeys.length ++ (c.staticAccountKeys.flatten ++
      (c.recentBlockhash ++ (encodeLength c.instructions.length ++
        (c.instructions.map serializeInstruction).flatten))))

/-- Modelled from the spec: message serialization — Legacy has no marker
byte; V0 prepends a single byte with the high bit set and the version
(zero) in the low 7 bits, and appends the compact array of address-table
lookups. -/
def Message.serialize : CompiledMessage → List Nat
  | .legacy c => serializeCore c
  | .v0 c ls =>
    128 :: (serializeCore c ++ (encodeLength ls.length ++
      (ls.map serializeLookup).flatten))

/-- Read one byte; fail with `MalformedMessage` on a truncated buffer. -/
def readByte : List Nat → Except String (Nat × List Nat)
  | [] => .error "MalformedMessage"
  | b :: r => .ok (b, r)

/-- Read exactly `k` bytes; fail with `MalformedMessage` when fewer
remain (the spec's length check against the remaining buffer size). -/
def readBytes (k : Nat) (bs : List Nat) :
    Except String (List Nat × List Nat) :=
  if k ≤ bs.length then .ok (bs.take k, bs.drop k)
  else .error "MalformedMessage"

/-- Read `k` consecutive items with the given item parser. -/
def readList {α : Type} (item : List Nat → Except String (α × List Nat)) :
    Nat → List Nat → Except String (List α × List Nat)
  | 0, bs => .ok ([], bs)
  | k + 1, bs =>
    match item bs with
    | .error e => .error e
    | .ok (a, r) =>
      match readList item k r with
      | .error e => .error e
      | .ok (xs, r2) => .ok (a :: xs, r2)

/-- Modelled from the spec: parse one compiled instruction (inverse of
`serializeInstruction`). -/
def readInstruction (bs : List Nat) :
    Except String (CompiledInstruction × List Nat) :=
  match readByte bs with
  | .error e => .error e
  | .ok (pidx, r0) =>
    match decodeLength r0 with
    | .error e => .error e
    | .ok (na, r1) =>
      match readBytes na r1 with
      | .error e => .error e
      | .ok (accts, r2) =>
        match decodeLength r2 with
        | .error e => .error e
        | .ok (nd, r3) =>
          match readBytes nd r3 with
          | .error e => .error e
          | .ok (dat, r4) =>
            .ok ({ programIdIndex := pidx, accountKeyIndexes := accts,
                   data := dat }, r4)

/-- Modelled from the spec: parse one address-table lookup (inverse of
`serializeLookup`). -/
def readLookup (bs : List Nat) :
    Except String (MessageAddressTableLookup × List Nat) :=
  match readBytes 32 bs with
  | .error e => .error e
  | .ok (key, r0) =>
    match decodeLength r0 with
    | .error e => .error e
    | .ok (nw, r1) =>
      match readBytes nw r1 with
      | .error e => .error e
      | .ok (wr, r2) =>
        match decodeLength r2 with
        | .error e => .error e
        | .ok (nro, r3) =>
          match readBytes nro r3 with
          | .error e => .error e
          | .ok (ro, r4) =>
            .ok ({ accountKey := key, writableIndexes := wr,
                   readonlyIndexes := ro }, r4)

/-- Modelled from the spec: parse the shared message body (inverse of
`serializeCore`). -/
def deserializeCore (bs : List Nat) :
    Except String (MessageCore × List Nat) :=
  match readByte bs with
  | .error e => .error e
  | .ok (h1, r0) =>
    match readByte r0 with
    | .error e => .error e
    | .ok (h2, r1) =>
      match readByte r1 with
      | .error e => .error e
      | .ok (h3, r2) =>
        match decodeLength r2 with
        | .error e => .error e
        | .ok (nk, r3) =>
          match readList (readBytes 32) nk r3 with
          | .error e => .error e
          | .ok (keys, r4) =>
            match readBytes 32 r4 with
            | .error e => .error e
            | .ok (bh, r5) =>
              match decodeLength r5 with
              | .error e => .error e
              | .ok (ni, r6) =>
                match readList readInstruction ni r6 with
                | .error e => .error e
                | .ok (instrs, r7) =>
                  .ok ({ header := { numRequiredSignatures := h1,
                                     numReadonlySignedAccounts := h2,
                                     numReadonlyUnsignedAccounts := h3 },
                         staticAccountKeys := keys,
                         recentBlockhash := bh,
                         instructions := instrs }, r7)

/-- Modelled from the spec: message deserialization — peek the first
byte; if its high bit is set, require version 0 in the low 7 bits
(`UnsupportedMessageVersion` otherwise) and parse a V0 body plus lookups;
otherwise parse a Legacy body.  Leftover bytes are malformed. -/
def Message.deserialize (bs : List Nat) : Except String CompiledMessage :=
  if bs.isEmpty then .error "MalformedMessage"
  else if 128 ≤ bs.headD 0 then
    if bs.headD 0 % 128 ≠ 0 then .error "UnsupportedMessageVersion"
    else
      match deserializeCore bs.tail with
      | .error e => .error e
      | .ok (c, r1) =>
        match decodeLength r1 with
        | .error e => .error e
        | .ok (nl, r2) =>
          match readList readLookup nl r2 with
          | .error e => .error e
          | .ok (ls, r3) =>
            if r3.isEmpty then .ok (.v0 c ls)
            else .error "MalformedMessage"
  else
    match deserializeCore bs with
    | .error e => .error e
    | .ok (c, r1) =>
      if r1.isEmpty then .ok (.legacy c) else .error "MalformedMessage"

/-- A byte value fits in 8 bits. -/
def wfByte (n : Nat) : Bool := decide (n < 256)

/-- A key (or blockhash) is exactly 32 byte values. -/
def wfKey (k : List Nat) : Bool := k.length == 32 && k.all wfByte

/-- A list length encodable by the compact-u16 codec. -/
def wfLen (n : Nat) : Bool := decide (n ≤ 65535)

/-- Well-formed compiled instruction: byte-ranged fields, encodable
list lengths. -/
def wfInstruction (i : CompiledInstruction) : Bool :=
  wfByte i.programIdIndex && wfLen i.accountKeyIndexes.length &&
    i.accountKeyIndexes.all wfByte && wfLen i.data.length &&
    i.data.all wfByte

/-- Well-formed address-table lookup. -/
def wfLookup (l : MessageAddressTableLookup) : Bool :=
  wfKey l.accountKey && wfLen l.writableIndexes.length &&
    l.writableIndexes.all wfByte && wfLen l.readonlyIndexes.length &&
    l.readonlyIndexes.all wfByte

/-- Well-formed message body. -/
def wfCore (c : MessageCore) : Bool :=
  wfByte c.header.numRequiredSignatures &&
    wfByte c.header.numReadonlySignedAccounts &&
    wfByte c.header.numReadonlyUnsignedAccounts &&
    wfLen c.staticAccountKeys.length && c.staticAccountKeys.all wfKey &&
    wfKey c.recentBlockhash && wfLen c.instructions.length &&
    c.instructions.all wfInstruction

/-- Well-formed compiled message.  A Legacy message needs
`numRequiredSignatures < 128` — the spec's version discrimination peeks
the high bit of the first serialized byte, which for Legacy is exactly
this header count. -/
def wfMessage : CompiledMessage → Bool
  | .legacy c => wfCore c && decide (c.header.numRequiredSignatures < 128)
  | .v0 c ls => wfCore c && wfLen ls.length && ls.all wfLookup

theorem wfKey_length (k : List Nat) (h : wfKey k = true) : k.length = 32 := by
  unfold wfKey at h
  simp only [Bool.and_eq_true, beq_iff_eq] at h
  exact h.1

theorem wfInstruction_parts (i : CompiledInstruction)
    (h : wfInstruction i = true) :
    i.accountKeyIndexes.length ≤ 65535 ∧ i.data.length ≤ 65535 := by
  unfold wfInstruction wfLen at h
  simp only [Bool.and_eq_true, decide_eq_true_eq] at h
  exact ⟨h.1.1.1.2, h.1.2⟩

theorem wfLookup_parts (l : MessageAddressTableLookup)
    (h : wfLookup l = true) :
    l.accountKey.length = 32 ∧ l.writableIndexes.length ≤ 65535 ∧
      l.readonlyIndexes.length ≤ 65535 := by
  unfold wfLookup wfLen at h
  simp only [Bool.and_eq_true, decide_eq_true_eq] at h
  exact ⟨wfKey_length _ h.1.1.1.1, h.1.1.1.2, h.1.2⟩

theorem wfCore_parts (c : MessageCore) (h : wfCore c = true) :
    c.staticAccountKeys.length ≤ 65535 ∧
    (∀ k ∈ c.staticAccountKeys, wfKey k = true) ∧
    c.recentBlockhash.length = 32 ∧
    c.instructions.length ≤ 65535 ∧
    (∀ i ∈ c.instructions, wfInstruction i = true) := by
  unfold wfCore wfLen at h
  simp only [Bool.and_eq_true, decide_eq_true_eq, List.all_eq_true] at h
  exact ⟨h.1.1.1.1.2, h.1.1.1.2, wfKey_length _ h.1.1.2, h.1.2, h.2⟩

theorem readBytes_append (k : Nat) (xs : List Nat) (h : xs.length = k)
    (r : List Nat) : readBytes k (xs ++ r) = .ok (xs, r) := by
  subst h
  unfold readBytes
  rw [if_pos (by simp)]
  rw [List.take_left, List.drop_left]

theorem readList_flatten {α : Type}
    (item : List Nat → Except String (α × List Nat)) (enc : α → List Nat)
    (xs : List α) (hitem : ∀ x ∈ xs, ∀ r, item (enc x ++ r) = .ok (x, r))
    (r : List Nat) :
    readList item xs.length ((xs.map enc).flatten ++ r) = .ok (xs, r) := by
  induction xs generalizing r with
  | nil => simp [readList]
  | cons x xs ih =>
    simp only [List.map_cons, List.flatten_cons, List.length_cons,
      List.append_assoc, readList, hitem x (List.mem_cons_self x xs)]
    rw [ih (fun y hy r2 => hitem y (List.mem_cons_of_mem x hy) r2) r]

theorem readInstruction_serialize (i : CompiledInstruction)
    (h : wfInstruction i = true) (r : List Nat) :
    readInstruction (serializeInstruction i ++ r) = .ok (i, r) := by
  obtain ⟨hna, hnd⟩ := wfInstruction_parts i h
  unfold serializeInstruction readInstruction
  simp only [List.cons_append, List.append_assoc, readByte,
    decodeLength_encodeLength _ hna, decodeLength_encodeLength _ hnd,
    readBytes_append _ i.accountKeyIndexes rfl,
    readBytes_append _ i.data rfl]

theorem readLookup_serialize (l : MessageAddressTableLookup)
    (h : wfLookup l = true) (r : List Nat) :
    readLookup (serializeLookup l ++ r) = .ok (l, r) := by
  obtain ⟨hkey, hnw, hnro⟩ := wfLookup_parts l h
  unfold serializeLookup readLookup
  simp only [List.append_assoc, readBytes_append 32 l.accountKey hkey,
    decodeLength_encodeLength _ hnw, decodeLength_encodeLength _ hnro,
    readBytes_append _ l.writableIndexes rfl,
    readBytes_append _ l.readonlyIndexes rfl]

theorem deserializeCore_serialize (c : MessageCore) (h : wfCore c = true)
    (r : List Nat) :
    deserializeCore (serializeCore c ++ r) = .ok (c, r) := by
  obtain ⟨hnk, hkeys, hbh, hni, hinstr⟩ := wfCore_parts c h
  have hkl : ∀ r2, readList (readBytes 32) c.staticAccountKeys.length
      (c.staticAccountKeys.flatten ++ r2) = .ok (c.staticAccountKeys, r2) := by
    intro r2
    have hthis := readList_flatten (readBytes 32) id c.staticAccountKeys
      (fun x hx r3 => readBytes_append 32 x (wfKey_length x (hkeys x hx)) r3) r2
    simpa using hthis
  have hil : ∀ r2, readList readInstruction c.instructions.length
      ((c.instructions.map serializeInstruction).flatten ++ r2) =
      .ok (c.instructions, r2) :=
    fun r2 => readList_flatten readInstruction serializeInstruction
      c.instructions (fun x hx r3 => readInstruction_serialize x (hinstr x hx) r3)
      r2
  unfold serializeCore deserializeCore
  simp only [List.cons_append, List.append_assoc, readByte,
    decodeLength_encodeLength _ hnk, decodeLength_encodeLength _ hni,
    hkl, hil, readBytes_append 32 c.recentBlockhash hbh]

theorem deserialize_serialize (m : CompiledMessage)
    (h : wfMessage m = true) :
    Message.deserialize (Message.serialize m) = .ok m := by
  cases m with
  | legacy c =>
    unfold wfMessage at h
    simp only [Bool.and_eq_true, decide_eq_true_eq] at h
    obtain ⟨hc, h128⟩ := h
    have hd := deserializeCore_serialize c hc []
    rw [List.append_nil] at hd
    have hne : ¬((serializeCore c).isEmpty = true) := by
      unfold serializeCore
      simp
    have hlt : ¬(128 ≤ (serializeCore c).headD 0) := by
      unfold serializeCore
      simp only [List.headD_cons]
      omega
    unfold Message.serialize Message.deserialize
    rw [if_neg hne, if_neg hlt, hd]
    rfl
  | v0 c ls =>
    unfold wfMessage wfLen at h
    simp only [Bool.and_eq_true, decide_eq_true_eq, List.all_eq_true] at h
    obtain ⟨⟨hc, hnl⟩, hls⟩ := h
    have hd := deserializeCore_serialize c hc
    have hll : ∀ r2, readList readLookup ls.length
        ((ls.map serializeLookup).flatten ++ r2) = .ok (ls, r2) :=
      fun r2 => readList_flatten readLookup serializeLookup ls
        (fun x hx r3 => readLookup_serialize x (hls x hx) r3) r2
    unfold Message.serialize Message.deserialize
    simp only [List.isEmpty_cons, List.headD_cons, List.tail_cons]
    rw [if_neg (by simp), if_pos (by norm_num), if_neg (by norm_num)]
    rw [show (ls.map serializeLookup).flatten =
      (ls.map serializeLookup).flatten ++ [] from (List.append_nil _).symm]
    simp only [hd, decodeLength_encodeLength _ hnl, hll]
    rfl

/-- A well-formed legacy message with one static key and no instructions
(the zero-instruction, zero-extra-account edge case). -/
def exampleLegacyMessage : CompiledMessage :=
  .legacy { header := { numRequiredSignatures := 1
                        numReadonlySignedAccounts := 0
                        numReadonlyUnsignedAccounts := 0 }
            staticAccountKeys := [List.replicate 32 2]
            recentBlockhash := List.replicate 32 3
            instructions := [] }

/-- A well-formed V0 message with two static keys, one instruction and
one address-table lookup. -/
def exampleV0Message : CompiledMessage :=
  .v0 { header := { numRequiredSignatures := 1
                    numReadonlySignedAccounts := 0
                    numReadonlyUnsignedAccounts := 1 }
        staticAccountKeys := [List.replicate 32 2, List.replicate 32 4]
        recentBlockhash := List.replicate 32 3
        instructions := [{ programIdIndex := 1
                           accountKeyIndexes := [0, 2]
                           data := [9, 9] }] }
      [{ accountKey := List.replicate 32 5
         writableIndexes := [0]
         readonlyIndexes := [] }]

/-- C4: the message codec round-trips losslessly for both formats:
deserializing a serialized well-formed message gives back the message
structurally, and every well-formed byte sequence (one produced by the
serializer) deserializes and re-serializes byte-for-byte. -/
theorem message_codec_roundtrip :
    (∀ m : CompiledMessage, wfMessage m = true →
      Message.deserialize (Message.serialize m) = .ok m) ∧
    (∀ b : List Nat, (∃ m, wfMessage m = true ∧ Message.serialize m = b) →
      ∃ m, Message.deserialize b = .ok m ∧ Message.serialize m = b) := by
  refine ⟨deserialize_serialize, ?_⟩
  rintro b ⟨m, hwf, rfl⟩
  exact ⟨m, deserialize_serialize m hwf, rfl⟩

theorem message_codec_roundtrip_witness :
    Message.deserialize (Message.serialize exampleLegacyMessage) =
      .ok exampleLegacyMessage ∧
    Message.deserialize (Message.serialize exampleV0Message) =
      .ok exampleV0Message :=
  ⟨message_codec_roundtrip.1 exampleLegacyMessage (by decide),
   message_codec_roundtrip.1 exampleV0Message (by decide)⟩
